import Mathlib

/-!
# Verification of the Auto-Video-Archive-Automation transfer pipeline

A shallow embedding of the retry / rate-limit / resume orchestration of the
repository's `run_*.py` and `watcher_*.py` drivers, together with proofs and
refutations of the specified properties.

Conventions used throughout:

* Wall-clock time is modelled in whole seconds as `Nat`.
* The local staging directory is modelled as a membership function
  `String → Bool` (the set of paths that currently exist on disk).
* Network calls (`download_video`, the platform uploaders, the cloud clients)
  are external collaborators; their behaviour is supplied by an oracle
  parameter, and each driver is embedded as a pure function from that oracle
  to the trace of observable events it performs (fetch attempts, sleeps,
  push calls, checkpoint appends, file deletions).
-/

namespace AVA

/-- Staging-directory update: the path `p` now exists on disk. -/
def addFile (p : String) (fs : String → Bool) : String → Bool :=
  fun q => if q = p then true else fs q

/-- Staging-directory update: the path `p` no longer exists
(`os.remove`). -/
def rmFile (p : String) (fs : String → Bool) : String → Bool :=
  fun q => if q = p then false else fs q

namespace RunYear

/-! ## `run_year.py` — per-entry pipeline step (lines 249-331)

Two destinations `c2` / `c3`, each with its own append-only archive file of
completed ids.  Events record, in program order, exactly the externally
visible operations the loop body performs. -/

/-- Observable events of one `run_year.run_year` loop iteration.
`cleanup id` stands for the removal of the staging video of entry `id`
together with its sidecar metadata files (lines 322-331, one block). -/
inductive Ev where
  | fetch (id : String)
  | sleepE (secs : Nat)
  | push (dest id : String)
  | markDone (dest id : String)
  | failNote (dest id : String)
  | cleanup (id : String)
deriving DecidableEq, Repr

/-- `MAX_DOWNLOAD_RETRIES = 2` (run_year.py line 72). -/
def MAX_DOWNLOAD_RETRIES : Nat := 2

/-- The download retry loop (run_year.py lines 267-275):
`for dl_attempt in range(1, MAX_DOWNLOAD_RETRIES + 1)` with a fixed
`time.sleep(10)` between failed attempts.  `dl a` is whether the
`download_video` call of 1-based attempt `a` returns a usable
`video_path`; `r` is the number of loop iterations still allowed.
Returns the event trace and whether a download succeeded. -/
def dlLoop (dl : Nat → Bool) (id : String) : Nat → Nat → List Ev × Bool
  | _, 0 => ([], false)
  | a, r + 1 =>
    if dl a then ([Ev.fetch id], true)
    else if r = 0 then ([Ev.fetch id], false)
    else
      let rest := dlLoop dl id (a + 1) r
      (Ev.fetch id :: Ev.sleepE 10 :: rest.1, rest.2)

/-- The two in-memory checkpoint sets `c2_done` / `c3_done`
(run_year.py lines 242-243), loaded from the archive files. -/
structure DoneSets where
  c2 : List String
  c3 : List String
deriving Repr

/-- Oracle for the external collaborators of one run:
`dl id a` is the success of download attempt `a` for entry `id`;
`pushOk dest id` is the truthiness of the destination uploader's result. -/
structure Beh where
  dl : String → Nat → Bool
  pushOk : String → String → Bool

/-- One destination upload block (run_year.py lines 287-302 resp. 305-320):
if the id is not yet checkpointed, call the uploader; on a truthy result
append the id to the archive file (`markDone`) and to the in-memory set,
otherwise record the failure. -/
def destStep (dest id : String) (already : Prop) [Decidable already]
    (ok : Bool) (doneList : List String) : List Ev × List String :=
  if already then ([], doneList)
  else if ok then ([Ev.push dest id, Ev.markDone dest id], id :: doneList)
  else ([Ev.push dest id, Ev.failNote dest id], doneList)

/-- One iteration of the per-entry loop of `run_year.run_year`
(lines 249-331): skip when both destinations are checkpointed; otherwise
download with retries; on download failure `continue` (no cleanup);
otherwise push to each not-yet-done destination and finally delete the
staging file and sidecars. -/
def processEntry (c2name c3name : String) (b : Beh) (done : DoneSets)
    (id : String) : List Ev × DoneSets :=
  if id ∈ done.c2 ∧ id ∈ done.c3 then ([], done)
  else
    let d := dlLoop (b.dl id) id 1 MAX_DOWNLOAD_RETRIES
    if d.2 then
      let s2 := destStep c2name id (id ∈ done.c2) (b.pushOk c2name id) done.c2
      let s3 := destStep c3name id (id ∈ done.c3) (b.pushOk c3name id) done.c3
      (d.1 ++ s2.1 ++ s3.1 ++ [Ev.cleanup id], ⟨s2.2, s3.2⟩)
    else
      (d.1, done)

/-- The whole per-entry loop over the playlist, threading the checkpoint
sets exactly as `run_year.run_year` does (`c2_done.add` on success). -/
def runEntries (c2name c3name : String) (b : Beh) :
    DoneSets → List String → List Ev × DoneSets
  | done, [] => ([], done)
  | done, id :: rest =>
    let p := processEntry c2name c3name b done id
    let rst := runEntries c2name c3name b p.2 rest
    (p.1 ++ rst.1, rst.2)

theorem dlLoop_shape (dl : Nat → Bool) (id : String) :
    ∀ r a x, x ∈ (dlLoop dl id a r).1 → x = Ev.fetch id ∨ x = Ev.sleepE 10 := by
  intro r
  induction r with
  | zero => intro a x hx; simp [dlLoop] at hx
  | succ r ih =>
    intro a x hx
    by_cases h1 : dl a
    · simp [dlLoop, h1] at hx; exact Or.inl hx
    · by_cases h2 : r = 0
      · simp [dlLoop, h1, h2] at hx; exact Or.inl hx
      · simp [dlLoop, h1, h2] at hx
        rcases hx with h | h | h
        · exact Or.inl h
        · exact Or.inr h
        · exact ih (a + 1) x h

theorem destStep_shape (dest id : String) (already : Prop) [Decidable already]
    (ok : Bool) (l : List String) (x : Ev)
    (hx : x ∈ (destStep dest id already ok l).1) :
    x = Ev.push dest id ∨ x = Ev.markDone dest id ∨ x = Ev.failNote dest id := by
  unfold destStep at hx
  by_cases h : already
  · simp [h] at hx
  · by_cases hok : ok <;> simp [h, hok] at hx <;> tauto

theorem destStep_already (dest id : String) (already : Prop) [Decidable already]
    (ok : Bool) (l : List String) (h : already) :
    destStep dest id already ok l = ([], l) := by
  simp [destStep, h]

theorem destStep_mono (dest id : String) (already : Prop) [Decidable already]
    (ok : Bool) (l : List String) (id₀ : String) (h : id₀ ∈ l) :
    id₀ ∈ (destStep dest id already ok l).2 := by
  unfold destStep
  by_cases ha : already
  · simpa [ha]
  · by_cases hok : ok <;> simp [ha, hok, List.mem_cons, h]

theorem processEntry_mono_c2 (c2name c3name : String) (b : Beh)
    (done : DoneSets) (id id₀ : String) (h : id₀ ∈ done.c2) :
    id₀ ∈ (processEntry c2name c3name b done id).2.c2 := by
  unfold processEntry
  by_cases hskip : id ∈ done.c2 ∧ id ∈ done.c3
  · simpa [hskip]
  · by_cases hdl : (dlLoop (b.dl id) id 1 MAX_DOWNLOAD_RETRIES).2
    · simpa [hskip, hdl] using destStep_mono c2name id _ _ done.c2 id₀ h
    · simpa [hskip, hdl]

theorem processEntry_mono_c3 (c2name c3name : String) (b : Beh)
    (done : DoneSets) (id id₀ : String) (h : id₀ ∈ done.c3) :
    id₀ ∈ (processEntry c2name c3name b done id).2.c3 := by
  unfold processEntry
  by_cases hskip : id ∈ done.c2 ∧ id ∈ done.c3
  · simpa [hskip]
  · by_cases hdl : (dlLoop (b.dl id) id 1 MAX_DOWNLOAD_RETRIES).2
    · simpa [hskip, hdl] using destStep_mono c3name id _ _ done.c3 id₀ h
    · simpa [hskip, hdl]

theorem processEntry_no_push_c2 (c2name c3name : String) (b : Beh)
    (done : DoneSets) (id id₀ : String) (hne : c2name ≠ c3name)
    (h : id₀ ∈ done.c2) :
    Ev.push c2name id₀ ∉ (processEntry c2name c3name b done id).1 := by
  unfold processEntry
  by_cases hskip : id ∈ done.c2 ∧ id ∈ done.c3
  · simp [hskip]
  · by_cases hdl : (dlLoop (b.dl id) id 1 MAX_DOWNLOAD_RETRIES).2
    · simp only [hskip, if_false, hdl, if_true]
      intro hmem
      simp only [List.mem_append, List.mem_singleton] at hmem
      rcases hmem with ((hd | hc2) | hc3) | hcl
      · rcases dlLoop_shape (b.dl id) id MAX_DOWNLOAD_RETRIES 1 _ hd with h1 | h1 <;>
          simp at h1
      · rcases destStep_shape c2name id _ _ done.c2 _ hc2 with h1 | h1 | h1 <;>
          [skip; simp at h1; simp at h1]
        have hid : id₀ = id := by
          have := h1
          simp only [Ev.push.injEq] at this
          exact this.2
        by_cases hc : id ∈ done.c2
        · rw [destStep_already c2name id _ _ done.c2 hc] at hc2
          simp at hc2
        · exact hc (hid ▸ h)
      · rcases destStep_shape c3name id _ _ done.c3 _ hc3 with h1 | h1 | h1 <;>
          [skip; simp at h1; simp at h1]
        simp only [Ev.push.injEq] at h1
        exact hne h1.1
      · simp at hcl
    · simp only [hskip, if_false, hdl, if_false]
      intro hmem
      simp only [Bool.not_eq_true] at hdl
      simp only [hdl, Bool.false_eq_true, if_false] at hmem
      rcases dlLoop_shape (b.dl id) id MAX_DOWNLOAD_RETRIES 1 _ hmem with h1 | h1 <;>
        simp at h1

theorem processEntry_no_push_c3 (c2name c3name : String) (b : Beh)
    (done : DoneSets) (id id₀ : String) (hne : c2name ≠ c3name)
    (h : id₀ ∈ done.c3) :
    Ev.push c3name id₀ ∉ (processEntry c2name c3name b done id).1 := by
  unfold processEntry
  by_cases hskip : id ∈ done.c2 ∧ id ∈ done.c3
  · simp [hskip]
  · by_cases hdl : (dlLoop (b.dl id) id 1 MAX_DOWNLOAD_RETRIES).2
    · simp only [hskip, if_false, hdl, if_true]
      intro hmem
      simp only [List.mem_append, List.mem_singleton] at hmem
      rcases hmem with ((hd | hc2) | hc3) | hcl
      · rcases dlLoop_shape (b.dl id) id MAX_DOWNLOAD_RETRIES 1 _ hd with h1 | h1 <;>
          simp at h1
      · rcases destStep_shape c2name id _ _ done.c2 _ hc2 with h1 | h1 | h1 <;>
          [skip; simp at h1; simp at h1]
        simp only [Ev.push.injEq] at h1
        exact hne h1.1.symm
      · rcases destStep_shape c3name id _ _ done.c3 _ hc3 with h1 | h1 | h1 <;>
          [skip; simp at h1; simp at h1]
        have hid : id₀ = id := by
          simp only [Ev.push.injEq] at h1
          exact h1.2
        by_cases hc : id ∈ done.c3
        · rw [destStep_already c3name id _ _ done.c3 hc] at hc3
          simp at hc3
        · exact hc (hid ▸ h)
      · simp at hcl
    · simp only [hskip, if_false, hdl, if_false]
      intro hmem
      simp only [Bool.not_eq_true] at hdl
      simp only [hdl, Bool.false_eq_true, if_false] at hmem
      rcases dlLoop_shape (b.dl id) id MAX_DOWNLOAD_RETRIES 1 _ hmem with h1 | h1 <;>
        simp at h1

theorem processEntry_no_fetch (c2name c3name : String) (b : Beh)
    (done : DoneSets) (id id₀ : String)
    (h2 : id₀ ∈ done.c2) (h3 : id₀ ∈ done.c3) :
    Ev.fetch id₀ ∉ (processEntry c2name c3name b done id).1 := by
  unfold processEntry
  by_cases hskip : id ∈ done.c2 ∧ id ∈ done.c3
  · simp [hskip]
  · have hid : id₀ ≠ id := by
      intro he; exact hskip ⟨he ▸ h2, he ▸ h3⟩
    by_cases hdl : (dlLoop (b.dl id) id 1 MAX_DOWNLOAD_RETRIES).2
    · simp only [hskip, if_false, hdl, if_true]
      intro hmem
      simp only [List.mem_append, List.mem_singleton] at hmem
      rcases hmem with ((hd | hc2) | hc3) | hcl
      · rcases dlLoop_shape (b.dl id) id MAX_DOWNLOAD_RETRIES 1 _ hd with h1 | h1
        · exact hid (by injection h1)
        · simp at h1
      · rcases destStep_shape c2name id _ _ done.c2 _ hc2 with h1 | h1 | h1 <;>
          simp at h1
      · rcases destStep_shape c3name id _ _ done.c3 _ hc3 with h1 | h1 | h1 <;>
          simp at h1
      · simp at hcl
    · simp only [hskip, if_false, hdl, if_false]
      intro hmem
      simp only [Bool.not_eq_true] at hdl
      simp only [hdl, Bool.false_eq_true, if_false] at hmem
      rcases dlLoop_shape (b.dl id) id MAX_DOWNLOAD_RETRIES 1 _ hmem with h1 | h1
      · exact hid (by injection h1)
      · simp at h1

theorem dlLoop_no_cleanup (dl : Nat → Bool) (id : String) (r a : Nat)
    (k : String) : Ev.cleanup k ∉ (dlLoop dl id a r).1 := by
  intro hmem
  rcases dlLoop_shape dl id r a _ hmem with h | h <;> simp at h

theorem destStep_no_cleanup (dest id : String) (already : Prop)
    [Decidable already] (ok : Bool) (l : List String) (k : String) :
    Ev.cleanup k ∉ (destStep dest id already ok l).1 := by
  intro hmem
  rcases destStep_shape dest id already ok l _ hmem with h | h | h <;> simp at h

/-- **C2**: for every item whose push succeeds, the checkpoint record (the
item id appended to the destination archive file inside a `with` block that
closes the file) is written strictly before the staging video file and its
sidecar metadata files are deleted: in the event trace of one loop
iteration of `run_year.run_year`, every `markDone` event precedes every
`cleanup` event.  (run_year.py lines 291-331: the archive append at
294-295 / 312-313 happens before the cleanup block at 322-331.) -/
theorem claim_C2_markDone_before_cleanup
    (c2name c3name : String) (b : Beh) (done : DoneSets) (id : String)
    {i j : Nat} {d id₀ id₁ : String}
    (hi : (processEntry c2name c3name b done id).1.get? i
            = some (Ev.markDone d id₀))
    (hj : (processEntry c2name c3name b done id).1.get? j
            = some (Ev.cleanup id₁)) :
    i < j := by
  unfold processEntry at hi hj
  by_cases hskip : id ∈ done.c2 ∧ id ∈ done.c3
  · simp [hskip] at hi
  · by_cases hdl : (dlLoop (b.dl id) id 1 MAX_DOWNLOAD_RETRIES).2
    · simp only [hskip, if_false, hdl, if_true] at hi hj
      set body := ((dlLoop (b.dl id) id 1 MAX_DOWNLOAD_RETRIES).1 ++
        (destStep c2name id (id ∈ done.c2) (b.pushOk c2name id) done.c2).1) ++
        (destStep c3name id (id ∈ done.c3) (b.pushOk c3name id) done.c3).1
        with hbody
      have hnc : ∀ k : String, Ev.cleanup k ∉ body := by
        intro k hk
        rw [hbody] at hk
        simp only [List.mem_append] at hk
        rcases hk with (hk | hk) | hk
        · exact dlLoop_no_cleanup _ _ _ _ _ hk
        · exact destStep_no_cleanup _ _ _ _ _ _ hk
        · exact destStep_no_cleanup _ _ _ _ _ _ hk
      have hiL : i < body.length := by
        rcases Nat.lt_or_ge i body.length with hlt | hge
        · exact hlt
        · exfalso
          rw [List.get?_append_right hge] at hi
          cases hk : i - body.length with
          | zero => rw [hk] at hi; simp at hi
          | succ m => rw [hk] at hi; simp at hi
      have hjR : body.length ≤ j := by
        rcases Nat.lt_or_ge j body.length with hlt | hge
        · exfalso
          rw [List.get?_append hlt] at hj
          exact hnc id₁ (List.get?_mem hj)
        · exact hge
      omega
    · simp only [hskip, if_false, hdl, if_false] at hj
      simp only [Bool.not_eq_true] at hdl
      simp only [hdl, Bool.false_eq_true, if_false] at hj
      exact absurd (List.get?_mem hj) (dlLoop_no_cleanup _ _ _ _ _)

/-- Witness for C2 at a concrete input: destination order Rumble/Bilibili,
entry `"a"` fresh, download succeeds first try, both pushes succeed; the
`markDone` for Rumble sits at index 2 of the trace and the cleanup at
index 5. -/
theorem claim_C2_markDone_before_cleanup_witness :
    (RunYear.processEntry "Rumble" "Bilibili"
        ⟨fun _ _ => true, fun _ _ => true⟩ ⟨[], []⟩ "a").1.get? 2
      = some (Ev.markDone "Rumble" "a") ∧
    (RunYear.processEntry "Rumble" "Bilibili"
        ⟨fun _ _ => true, fun _ _ => true⟩ ⟨[], []⟩ "a").1.get? 5
      = some (Ev.cleanup "a") ∧
    (2 : Nat) < 5 :=
  ⟨by decide, by decide,
    @claim_C2_markDone_before_cleanup "Rumble" "Bilibili"
      ⟨fun _ _ => true, fun _ _ => true⟩ ⟨[], []⟩ "a" 2 5 "Rumble" "a" "a"
      (by decide) (by decide)⟩

/-- **C1**: an item id present in a destination's checkpoint set at the
start of a run is never pushed to that destination during the run, and an
item checkpointed for every configured destination is never re-fetched
(run_year.py lines 254-259 skip, 287 / 305 per-destination guards;
run_dailymotion.py lines 158-160 are the single-destination instance). -/
theorem claim_C1_checkpointed_never_repushed_never_refetched
    (c2name c3name : String) (b : Beh) (es : List String) (done : DoneSets)
    (id₀ : String) (hne : c2name ≠ c3name) :
    (id₀ ∈ done.c2 →
      Ev.push c2name id₀ ∉ (runEntries c2name c3name b done es).1) ∧
    (id₀ ∈ done.c3 →
      Ev.push c3name id₀ ∉ (runEntries c2name c3name b done es).1) ∧
    (id₀ ∈ done.c2 → id₀ ∈ done.c3 →
      Ev.fetch id₀ ∉ (runEntries c2name c3name b done es).1) := by
  induction es generalizing done with
  | nil => simp [runEntries]
  | cons e rest ih =>
    refine ⟨?_, ?_, ?_⟩
    · intro h hmem
      simp only [runEntries, List.mem_append] at hmem
      rcases hmem with hmem | hmem
      · exact processEntry_no_push_c2 c2name c3name b done e id₀ hne h hmem
      · exact (ih _).1 (processEntry_mono_c2 c2name c3name b done e id₀ h) hmem
    · intro h hmem
      simp only [runEntries, List.mem_append] at hmem
      rcases hmem with hmem | hmem
      · exact processEntry_no_push_c3 c2name c3name b done e id₀ hne h hmem
      · exact (ih _).2.1 (processEntry_mono_c3 c2name c3name b done e id₀ h) hmem
    · intro h2 h3 hmem
      simp only [runEntries, List.mem_append] at hmem
      rcases hmem with hmem | hmem
      · exact processEntry_no_fetch c2name c3name b done e id₀ h2 h3 hmem
      · exact (ih _).2.2 (processEntry_mono_c2 c2name c3name b done e id₀ h2)
          (processEntry_mono_c3 c2name c3name b done e id₀ h3) hmem

/-- Witness for C1 at a concrete input: `"a"` is checkpointed for both
destinations at the start, `"b"` for neither; the run neither pushes
`"a"` anywhere nor fetches it. -/
theorem claim_C1_checkpointed_never_repushed_never_refetched_witness :
    Ev.push "Rumble" "a" ∉ (RunYear.runEntries "Rumble" "Bilibili"
      ⟨fun _ _ => true, fun _ _ => true⟩ ⟨["a"], ["a"]⟩ ["a", "b"]).1 ∧
    Ev.push "Bilibili" "a" ∉ (RunYear.runEntries "Rumble" "Bilibili"
      ⟨fun _ _ => true, fun _ _ => true⟩ ⟨["a"], ["a"]⟩ ["a", "b"]).1 ∧
    Ev.fetch "a" ∉ (RunYear.runEntries "Rumble" "Bilibili"
      ⟨fun _ _ => true, fun _ _ => true⟩ ⟨["a"], ["a"]⟩ ["a", "b"]).1 := by
  have h := claim_C1_checkpointed_never_repushed_never_refetched
    "Rumble" "Bilibili" ⟨fun _ _ => true, fun _ _ => true⟩ ["a", "b"]
    ⟨["a"], ["a"]⟩ "a" (by decide)
  exact ⟨h.1 (by decide), h.2.1 (by decide), h.2.2 (by decide) (by decide)⟩

end RunYear

namespace RunDM

/-! ## `run_dailymotion.py` — rate-limit state, cooldown pause, per-item loop

The single-destination Dailymotion runner: persisted rate-limit pause
record (`_save_ratelimit_state` / `_load_ratelimit_state` /
`_clear_ratelimit_state`), the startup resume block, the download retry
loop and the `while True` upload loop with `_handle_ratelimit_pause`. -/

/-- Observable events of the Dailymotion runner, per item. -/
inductive Ev where
  | fetch
  | sleepE (secs : Nat)
  | push
  | savePause (resumeAfter : Nat)
  | clearPause
  | markDone (id : String)
  | failNote
  | cleanup (path : String)
deriving DecidableEq, Repr

/-- `MAX_DOWNLOAD_RETRIES = 2` (run_dailymotion.py line 38). -/
def MAX_DOWNLOAD_RETRIES : Nat := 2

/-- The 24-hour cooldown used by `_save_ratelimit_state` and
`_handle_ratelimit_pause` (`24 * 60 * 60` seconds). -/
def COOLDOWN : Nat := 24 * 60 * 60

/-- The persisted rate-limit pause record (run_dailymotion.py lines 43-49;
the `title` and `index` fields play no role in the resume logic and are
omitted). -/
structure RLState where
  videoId : String
  pausedAt : Nat
  resumeAfter : Nat
deriving DecidableEq, Repr

/-- `_save_ratelimit_state` (lines 41-52):
`resume_after = paused_at + 24 * 60 * 60`. -/
def saveRatelimitState (videoId : String) (pausedAt : Nat) : RLState :=
  ⟨videoId, pausedAt, pausedAt + 24 * 60 * 60⟩

/-- The startup resume block of `main` (lines 109-120): load the record
(`none` when the file is missing or unparsable), compute
`remaining = resume_after - now`, sleep for `remaining` when positive,
then remove the record in either case.  Returns the seconds slept and the
state file contents afterwards. -/
def startupResume (st : Option RLState) (now : Nat) : Nat × Option RLState :=
  match st with
  | none => (0, none)
  | some s =>
    if s.resumeAfter - now > 0 then (s.resumeAfter - now, none)
    else (0, none)

/-- **C3**: on startup with a persisted pause record, when
`resume_after > now` the pipeline blocks for exactly `resume_after - now`
(recomputed from the persisted deadline, not restarted from zero) and then
deletes the record; when `resume_after <= now` it deletes the record
immediately without blocking (run_dailymotion.py lines 109-120). -/
theorem claim_C3_startup_resume_exact_wait_then_clear
    (s : RLState) (now : Nat) :
    (now < s.resumeAfter →
      startupResume (some s) now = (s.resumeAfter - now, none)) ∧
    (s.resumeAfter ≤ now → startupResume (some s) now = (0, none)) := by
  constructor
  · intro h
    simp [startupResume, Nat.sub_pos_of_lt h]
  · intro h
    simp [startupResume, Nat.sub_eq_zero_of_le h]

/-- Witness for C3: a record with `resume_after = 100`; at `now = 40` the
runner sleeps exactly 60 s and clears the record, at `now = 150` it clears
immediately. -/
theorem claim_C3_startup_resume_exact_wait_then_clear_witness :
    startupResume (some ⟨"a", 0, 100⟩) 40 = (60, none) ∧
    startupResume (some ⟨"a", 0, 100⟩) 150 = (0, none) :=
  ⟨(claim_C3_startup_resume_exact_wait_then_clear ⟨"a", 0, 100⟩ 40).1
      (by decide),
   (claim_C3_startup_resume_exact_wait_then_clear ⟨"a", 0, 100⟩ 150).2
      (by decide)⟩

/-- Result of one `download_video` call: `ok path` — success with the
staging video at `path`; `failWrote path` — failure that left a partially
written file at `path` (downloader.py lines 117-121 stream into the
target file before any error can be raised); `failClean` — failure that
left nothing behind. -/
inductive DlRes where
  | ok (path : String)
  | failWrote (path : String)
  | failClean
deriving DecidableEq, Repr

/-- The download retry loop of `main` (lines 164-178), threading the
staging directory: up to `r` more attempts, `dl a` the outcome of the
1-based attempt `a`, fixed `time.sleep(10)` between failed attempts.
Returns the trace, the staging directory afterwards, and the
`video_path` on success. -/
def dlLoop (dl : Nat → DlRes) : Nat → Nat → (String → Bool) →
    List Ev × (String → Bool) × Option String
  | _, 0, fs => ([], fs, none)
  | a, r + 1, fs =>
    match dl a with
    | .ok p => ([Ev.fetch], addFile p fs, some p)
    | .failWrote p =>
      if r = 0 then ([Ev.fetch], addFile p fs, none)
      else
        let rest := dlLoop dl (a + 1) r (addFile p fs)
        (Ev.fetch :: Ev.sleepE 10 :: rest.1, rest.2)
    | .failClean =>
      if r = 0 then ([Ev.fetch], fs, none)
      else
        let rest := dlLoop dl (a + 1) r fs
        (Ev.fetch :: Ev.sleepE 10 :: rest.1, rest.2)

/-- Result of one `upload_to_dailymotion` call: the string
`"RATE_LIMITED"`, a video id, or `None`. -/
inductive PushRes where
  | rateLimited
  | okId (id : String)
  | failed
deriving DecidableEq, Repr

/-- The `while True` upload loop of `main` (lines 183-191) together with
`_handle_ratelimit_pause` (lines 72-90): on `"RATE_LIMITED"` save the
pause record with `resume_after = paused_at + 24 * 60 * 60`, sleep the
full 24 h, clear the record, and retry the same video (`continue`);
otherwise `break`.  One oracle entry is consumed per upload call;
returns the trace and `some result` of the final call, or `none` when the
oracle ran out while still rate-limited (the loop would still be
running). -/
def uploadLoop : Nat → List PushRes → List Ev × Option PushRes
  | _, [] => ([], none)
  | now, r :: rest =>
    match r with
    | .rateLimited =>
      let cont := uploadLoop (now + COOLDOWN) rest
      (Ev.push :: Ev.savePause (now + 24 * 60 * 60) :: Ev.sleepE COOLDOWN ::
        Ev.clearPause :: cont.1, cont.2)
    | r => ([Ev.push], some r)

/-- One iteration of the per-video loop of `main` (lines 162-218) for a
video id not in `done_ids`: download with retries — on exhaustion notify
the failure and `continue` (line 178; note: the cleanup block at lines
209-218 is skipped, a partial staging file is not removed); otherwise run
the upload loop; on a truthy non-`"RATE_LIMITED"` result append the id to
`DM_ARCHIVE` (`markDone`); finally remove the staging file (the sidecar
removals of lines 214-218 follow the same pattern and are folded into the
same cleanup step). -/
def itemStep (vid : String) (now : Nat) (dl : Nat → DlRes)
    (pushes : List PushRes) (fs : String → Bool) :
    List Ev × (String → Bool) :=
  let d := dlLoop dl 1 MAX_DOWNLOAD_RETRIES fs
  match d.2.2 with
  | none => (d.1 ++ [Ev.failNote], d.2.1)
  | some path =>
    let u := uploadLoop now pushes
    let tail : List Ev × (String → Bool) :=
      match u.2 with
      | some (.okId _) => ([Ev.markDone vid, Ev.cleanup path], rmFile path d.2.1)
      | some _ => ([Ev.failNote, Ev.cleanup path], rmFile path d.2.1)
      | none => ([], d.2.1)
    (d.1 ++ u.1 ++ tail.1, tail.2)

theorem dlLoopDM_shape (dl : Nat → DlRes) :
    ∀ r a fs x, x ∈ (dlLoop dl a r fs).1 → x = Ev.fetch ∨ x = Ev.sleepE 10 := by
  intro r
  induction r with
  | zero => intro a fs x hx; simp [dlLoop] at hx
  | succ r ih =>
    intro a fs x hx
    cases hda : dl a with
    | ok p => simp [dlLoop, hda] at hx; exact Or.inl hx
    | failWrote p =>
      by_cases h2 : r = 0
      · simp [dlLoop, hda, h2] at hx; exact Or.inl hx
      · simp [dlLoop, hda, h2] at hx
        rcases hx with h | h | h
        · exact Or.inl h
        · exact Or.inr h
        · exact ih (a + 1) (addFile p fs) x h
    | failClean =>
      by_cases h2 : r = 0
      · simp [dlLoop, hda, h2] at hx; exact Or.inl hx
      · simp [dlLoop, hda, h2] at hx
        rcases hx with h | h | h
        · exact Or.inl h
        · exact Or.inr h
        · exact ih (a + 1) fs x h

theorem uploadLoop_shape :
    ∀ (ps : List PushRes) (now : Nat) (x : Ev), x ∈ (uploadLoop now ps).1 →
      x = Ev.push ∨ (∃ t, x = Ev.savePause t) ∨
      (∃ s, x = Ev.sleepE s) ∨ x = Ev.clearPause := by
  intro ps
  induction ps with
  | nil => intro now x hx; simp [uploadLoop] at hx
  | cons r rest ih =>
    intro now x hx
    cases r with
    | rateLimited =>
      simp only [uploadLoop, List.mem_cons] at hx
      rcases hx with h | h | h | h | h
      · exact Or.inl h
      · exact Or.inr (Or.inl ⟨_, h⟩)
      · exact Or.inr (Or.inr (Or.inl ⟨_, h⟩))
      · exact Or.inr (Or.inr (Or.inr h))
      · exact ih (now + COOLDOWN) x h
    | okId i => simp [uploadLoop] at hx; exact Or.inl hx
    | failed => simp [uploadLoop] at hx; exact Or.inl hx

theorem uploadLoop_head (now : Nat) (r : PushRes) (rest : List PushRes) :
    (uploadLoop now (r :: rest)).1.head? = some Ev.push := by
  cases r <;> simp [uploadLoop]

/-- **C4**: when a push reports `"RATE_LIMITED"`, the runner persists the
pause record with `resume_after` = pause time + 24 hours and only then
sleeps (the `savePause` event precedes the `sleepE` event in the trace);
after the cooldown the very same item's push is retried (the continuation
of the loop starts with another `push` of this item — the item is not
abandoned); and no checkpoint append happens for the item until an upload
call succeeds (run_dailymotion.py lines 41-52, 72-90, 183-199). -/
theorem claim_C4_rate_limit_pause_retry_same_item
    (now : Nat) (rest : List PushRes) :
    uploadLoop now (.rateLimited :: rest)
      = (Ev.push :: Ev.savePause (now + 24 * 60 * 60) :: Ev.sleepE COOLDOWN ::
          Ev.clearPause :: (uploadLoop (now + COOLDOWN) rest).1,
         (uploadLoop (now + COOLDOWN) rest).2) ∧
    (∀ r rest',
      (uploadLoop (now + COOLDOWN) (r :: rest')).1.head? = some Ev.push) ∧
    (∀ vid dl pushes fs, Ev.markDone vid ∈ (itemStep vid now dl pushes fs).1 →
      ∃ id, (uploadLoop now pushes).2 = some (.okId id)) := by
  refine ⟨rfl, fun r rest' => uploadLoop_head _ r rest', ?_⟩
  intro vid dl pushes fs hmem
  unfold itemStep at hmem
  cases hd : (dlLoop dl 1 MAX_DOWNLOAD_RETRIES fs).2.2 with
  | none =>
    simp only [hd, List.mem_append, List.mem_singleton] at hmem
    rcases hmem with h | h
    · rcases dlLoopDM_shape dl MAX_DOWNLOAD_RETRIES 1 fs _ h with h1 | h1 <;>
        simp at h1
    · simp at h
  | some path =>
    simp only [hd, List.mem_append] at hmem
    rcases hmem with (h | h) | h
    · rcases dlLoopDM_shape dl MAX_DOWNLOAD_RETRIES 1 fs _ h with h1 | h1 <;>
        simp at h1
    · rcases uploadLoop_shape pushes now _ h with h1 | ⟨t, h1⟩ | ⟨s, h1⟩ | h1 <;>
        simp at h1
    · cases hu : (uploadLoop now pushes).2 with
      | none => simp [hu] at h
      | some r =>
        cases r with
        | okId i => exact ⟨i, rfl⟩
        | rateLimited => simp [hu] at h
        | failed => simp [hu] at h

/-- Oracle used in the C4 witness: the first upload call is rate limited,
the second succeeds. -/
def c4pushes : List PushRes := [.rateLimited, .okId "dmid"]

/-- Download oracle whose first attempt succeeds. -/
def dlOk : Nat → DlRes := fun _ => .ok "v.mp4"

/-- Witness for C4 at a concrete input: a rate-limited first call followed
by a successful retry of the same video; the trace contains the checkpoint
append and the final upload result is the success id. -/
theorem claim_C4_rate_limit_pause_retry_same_item_witness :
    Ev.markDone "a" ∈ (itemStep "a" 0 dlOk c4pushes (fun _ => false)).1 ∧
    ∃ id, (uploadLoop 0 c4pushes).2 = some (.okId id) :=
  ⟨by decide,
   (claim_C4_rate_limit_pause_retry_same_item 0 [.okId "dmid"]).2.2
     "a" dlOk c4pushes (fun _ => false) (by decide)⟩

theorem dlLoopDM_count_fetch (dl : Nat → DlRes) :
    ∀ r a fs, ((dlLoop dl a r fs).1.count Ev.fetch) ≤ r := by
  intro r
  induction r with
  | zero => intro a fs; simp [dlLoop]
  | succ r ih =>
    intro a fs
    cases hda : dl a with
    | ok p => simp [dlLoop, hda]
    | failWrote p =>
      by_cases h2 : r = 0
      · simp [dlLoop, hda, h2]
      · have := ih (a + 1) (addFile p fs)
        simp only [dlLoop, hda, h2, if_false]
        simp [List.count_cons]
        omega
    | failClean =>
      by_cases h2 : r = 0
      · simp [dlLoop, hda, h2]
      · have := ih (a + 1) fs
        simp only [dlLoop, hda, h2, if_false]
        simp [List.count_cons]
        omega

theorem uploadLoop_no_fetch (ps : List PushRes) (now : Nat) :
    Ev.fetch ∉ (uploadLoop now ps).1 := by
  intro hmem
  rcases uploadLoop_shape ps now _ hmem with h | ⟨t, h⟩ | ⟨s, h⟩ | h <;>
    simp at h

theorem itemStep_count_fetch (vid : String) (now : Nat) (dl : Nat → DlRes)
    (pushes : List PushRes) (fs : String → Bool) :
    ((itemStep vid now dl pushes fs).1.count Ev.fetch)
      ≤ MAX_DOWNLOAD_RETRIES := by
  unfold itemStep
  have h1 := dlLoopDM_count_fetch dl MAX_DOWNLOAD_RETRIES 1 fs
  have h2 : ((uploadLoop now pushes).1.count Ev.fetch) = 0 :=
    List.count_eq_zero.mpr (uploadLoop_no_fetch pushes now)
  cases hd : (dlLoop dl 1 MAX_DOWNLOAD_RETRIES fs).2.2 with
  | none =>
    simp only [hd, List.count_append]
    have h3 : (([Ev.failNote] : List Ev).count Ev.fetch) = 0 := by decide
    omega
  | some path =>
    cases hu : (uploadLoop now pushes).2 with
    | none =>
      have h5 : (([] : List Ev).count Ev.fetch) = 0 := rfl
      simp only [hd, hu, List.count_append]
      omega
    | some r =>
      cases r with
      | rateLimited =>
        have h4 : (([Ev.failNote, Ev.cleanup path] : List Ev).count
            Ev.fetch) = 0 := by
          rw [List.count_eq_zero]; simp
        simp only [hd, hu, List.count_append]
        omega
      | okId i =>
        have h4 : (([Ev.markDone vid, Ev.cleanup path] : List Ev).count
            Ev.fetch) = 0 := by
          rw [List.count_eq_zero]; simp
        simp only [hd, hu, List.count_append]
        omega
      | failed =>
        have h4 : (([Ev.failNote, Ev.cleanup path] : List Ev).count
            Ev.fetch) = 0 := by
          rw [List.count_eq_zero]; simp
        simp only [hd, hu, List.count_append]
        omega

/-- Counterexample input for C5: both download attempts fail, the first
leaving a partially written staging file `"v.mp4"`. -/
def c5dl : Nat → DlRes :=
  fun a => if a = 1 then .failWrote "v.mp4" else .failClean

/-- **C5 counterexample**: with both download attempts failing and the
first attempt leaving a partially written `"v.mp4"`, the item is abandoned
with a failure notification (trace `[fetch, sleep 10, fetch, failNote]`) —
but the partially written staging file still exists afterwards: the
`continue` at run_dailymotion.py line 178 skips the cleanup block of lines
209-218, so the claim's "the partially written staging file (if any) is
removed" is false at this input. -/
theorem claim_C5_counterexample :
    (itemStep "a" 0 c5dl [] (fun _ => false)).1
      = [Ev.fetch, Ev.sleepE 10, Ev.fetch, Ev.failNote] ∧
    (itemStep "a" 0 c5dl [] (fun _ => false)).2 "v.mp4" = true := by
  constructor <;> rfl

/-- **C5 (amended)**: for every item, fetch is attempted at most
`MAX_DOWNLOAD_RETRIES` (2) times with a fixed 10-second delay between
attempts; if every attempt fails, a Failure event is emitted and no push
is attempted for the item — but the partially written staging file (if
any) is NOT removed: it remains on disk (run_dailymotion.py lines
164-178; the `continue` at line 178 skips the cleanup block). -/
theorem claim_C5_fetch_retry_bound_failure_no_push_partial_retained
    (vid : String) (now : Nat) (dl : Nat → DlRes) (pushes : List PushRes)
    (fs : String → Bool)
    (h1 : ∀ p, dl 1 ≠ .ok p) (h2 : ∀ p, dl 2 ≠ .ok p) :
    (∀ dl' : Nat → DlRes,
      ((itemStep vid now dl' pushes fs).1.count Ev.fetch)
        ≤ MAX_DOWNLOAD_RETRIES) ∧
    (itemStep vid now dl pushes fs).1
      = [Ev.fetch, Ev.sleepE 10, Ev.fetch, Ev.failNote] ∧
    Ev.push ∉ (itemStep vid now dl pushes fs).1 ∧
    (∀ p, (dl 1 = .failWrote p ∨ dl 2 = .failWrote p) →
      (itemStep vid now dl pushes fs).2 p = true) := by
  have addSelf : ∀ (p : String) (g : String → Bool), addFile p g p = true := by
    intro p g; simp [addFile]
  have addMono : ∀ (p q : String) (g : String → Bool), g q = true →
      addFile p g q = true := by
    intro p q g hq
    unfold addFile
    by_cases h : q = p <;> simp [h, hq]
  have key : ∃ fs' : String → Bool,
      itemStep vid now dl pushes fs
        = ([Ev.fetch, Ev.sleepE 10, Ev.fetch, Ev.failNote], fs') ∧
      (∀ p, (dl 1 = .failWrote p ∨ dl 2 = .failWrote p) → fs' p = true) := by
    cases hd1 : dl 1 with
    | ok p => exact absurd hd1 (h1 p)
    | failWrote p1 =>
      cases hd2 : dl 2 with
      | ok p => exact absurd hd2 (h2 p)
      | failWrote p2 =>
        refine ⟨addFile p2 (addFile p1 fs), ?_, ?_⟩
        · simp [itemStep, MAX_DOWNLOAD_RETRIES, dlLoop, hd1, hd2]
        · intro p hp
          rcases hp with hp | hp
          · have hpp : p1 = p := by injection hp
            exact hpp ▸ addMono p2 p1 _ (addSelf p1 fs)
          · have hpp : p2 = p := by injection hp
            exact hpp ▸ addSelf p2 _
      | failClean =>
        refine ⟨addFile p1 fs, ?_, ?_⟩
        · simp [itemStep, MAX_DOWNLOAD_RETRIES, dlLoop, hd1, hd2]
        · intro p hp
          rcases hp with hp | hp
          · have hpp : p1 = p := by injection hp
            exact hpp ▸ addSelf p1 fs
          · simp at hp
    | failClean =>
      cases hd2 : dl 2 with
      | ok p => exact absurd hd2 (h2 p)
      | failWrote p2 =>
        refine ⟨addFile p2 fs, ?_, ?_⟩
        · simp [itemStep, MAX_DOWNLOAD_RETRIES, dlLoop, hd1, hd2]
        · intro p hp
          rcases hp with hp | hp
          · simp at hp
          · have hpp : p2 = p := by injection hp
            exact hpp ▸ addSelf p2 fs
      | failClean =>
        refine ⟨fs, ?_, ?_⟩
        · simp [itemStep, MAX_DOWNLOAD_RETRIES, dlLoop, hd1, hd2]
        · intro p hp
          rcases hp with hp | hp <;> simp at hp
  obtain ⟨fs', hfs, hmem⟩ := key
  refine ⟨fun dl' => itemStep_count_fetch vid now dl' pushes fs, ?_, ?_, ?_⟩
  · rw [hfs]
  · rw [hfs]; simp
  · intro p hp
    rw [hfs]
    exact hmem p hp

/-- Witness for the amended C5 at the concrete input `c5dl`: no push is
attempted and the partially written `"v.mp4"` remains on disk. -/
theorem claim_C5_fetch_retry_bound_failure_no_push_partial_retained_witness :
    Ev.push ∉ (itemStep "a" 0 c5dl [] (fun _ => false)).1 ∧
    (itemStep "a" 0 c5dl [] (fun _ => false)).2 "v.mp4" = true := by
  have h := claim_C5_fetch_retry_bound_failure_no_push_partial_retained
    "a" 0 c5dl [] (fun _ => false)
    (by intro p hp; simp [c5dl] at hp)
    (by intro p hp; simp [c5dl] at hp)
  exact ⟨h.2.2.1, h.2.2.2 "v.mp4" (Or.inl (by decide))⟩

end RunDM

namespace PCWatch

/-! ## `watcher_pcloud_to_bilibili.py` — `transfer_file` (lines 97-184)

The try body assigns the local variable `success` only on the
Bilibili-enabled upload path (line 137) and in monitor mode (line 145);
the `finally` block (lines 178-184) evaluates
`os.path.exists(local_path) and (not BILIBILI_ENABLED or success)`.
Python evaluates the conjunction left to right, reading an unassigned
local raises `UnboundLocalError`, and an exception raised in a `finally`
block replaces the pending `return`. -/

/-- Outcome of the pCloud download step (lines 109-119): the call raises,
returns a falsy result, or succeeds; `wrote` records whether a (partial)
file was left at `local_path`. -/
inductive DlOut where
  | raises (wrote : Bool)
  | retFalse (wrote : Bool)
  | ok
deriving DecidableEq, Repr

/-- Outcome of the `upload_to_bilibili` call (line 128). -/
inductive UlOut where
  | raises
  | rateLimited
  | truthy
  | falsy
deriving DecidableEq, Repr

/-- The uncaught exception a call can raise. -/
inductive PyErr where
  | unboundLocal
deriving DecidableEq, Repr

/-- Result of calling `transfer_file`: a normal return value or an
uncaught exception, plus whether the staging file still exists. -/
structure Res where
  outcome : Except PyErr Bool
  fileStays : Bool
deriving Repr

/-- `transfer_file` of watcher_pcloud_to_bilibili.py (lines 97-184).
`enabled` is the module-level `BILIBILI_ENABLED`.  The try/except body is
summarised by its pending return value, the final value of the local
`success` (`none` = never assigned) and whether `local_path` exists; the
`finally` block then removes the file, keeps it, or raises
`UnboundLocalError` while reading the unassigned `success`. -/
def transfer_file (enabled : Bool) (dl : DlOut) (ul : UlOut) : Res :=
  let body : Bool × Option Bool × Bool :=
    match dl with
    | .raises w => (false, none, w)     -- caught at line 174: return False
    | .retFalse w => (false, none, w)   -- line 119: return False
    | .ok =>
      if enabled then
        match ul with
        | .raises => (false, none, true)       -- caught at line 174
        | .rateLimited => (false, none, true)  -- line 136: return False
        | .truthy => (true, some true, true)   -- lines 137-172: return True
        | .falsy => (true, some false, true)   -- lines 137-172: return True
      else (true, some true, true)             -- lines 143-145 monitor mode
  match body with
  | (ret, succ, fileEx) =>
    if fileEx then
      if !enabled then ⟨.ok ret, false⟩
      else
        match succ with
        | none => ⟨.error .unboundLocal, true⟩
        | some true => ⟨.ok ret, false⟩
        | some false => ⟨.ok ret, true⟩
    else ⟨.ok ret, false⟩

/-- **C6 (code bug)**: with Bilibili uploads enabled, a successful
download followed by a rate-limited upload makes `transfer_file` raise
`UnboundLocalError` out of the function — the `finally` block (line 180)
reads the local `success`, which the `return False` at line 136 leaves
unassigned — aborting the remaining items of the cycle instead of
returning `False` as the claim (and the code's own comment
"Don't mark as done, retry next cycle") requires; the staging file is
also left behind.  A download that raises after partially writing the
file hits the same error. -/
theorem claim_C6_rate_limited_upload_raises_unbound_local :
    transfer_file true .ok .rateLimited
      = ⟨.error .unboundLocal, true⟩ ∧
    transfer_file true (.raises true) .truthy
      = ⟨.error .unboundLocal, true⟩ := by
  constructor <;> rfl

end PCWatch

namespace IXWatch

/-! ## `watcher_internxt_to_icedrive.py` — `transfer_file` (lines 91-173) -/

/-- Behaviour of one `transfer_file` call: where the attempt stops.
`wrote` records whether the download left a (partial) file at
`local_path` before failing. -/
inductive Beh where
  | dlRaises (wrote : Bool)       -- internxt_download raises (caught at 156)
  | dlReturnsFalse (wrote : Bool) -- lines 110-118: falsy download result
  | ulRaises                      -- download ok, icedrive_upload raises
  | ulReturnsFalse                -- lines 126-134: falsy upload result
  | laterRaises                   -- archive/notify step raises (lines 137-151)
  | success                       -- line 154: return True
deriving DecidableEq, Repr

/-- `transfer_file` of watcher_internxt_to_icedrive.py (lines 91-173):
returns the function's return value and the staging directory after the
call.  Every body outcome falls through to the `finally` block (lines
166-173), which removes `local_path` when it exists. -/
def transfer_file (downloadDir fileName : String) (fs0 : String → Bool)
    (b : Beh) : Bool × (String → Bool) :=
  let localPath := downloadDir ++ "/" ++ fileName
  let body : Bool × (String → Bool) :=
    match b with
    | .dlRaises w => (false, if w then addFile localPath fs0 else fs0)
    | .dlReturnsFalse w => (false, if w then addFile localPath fs0 else fs0)
    | .ulRaises => (false, addFile localPath fs0)
    | .ulReturnsFalse => (false, addFile localPath fs0)
    | .laterRaises => (false, addFile localPath fs0)
    | .success => (true, addFile localPath fs0)
  let fs1 := body.2
  (body.1, if fs1 localPath then rmFile localPath fs1 else fs1)

/-- **C10**: whenever `transfer_file` of the Internxt→Icedrive watcher
returns — the transfer succeeded, the download failed, the upload failed,
or an exception was raised — the local staging file at
`DOWNLOAD_DIR/file_name` no longer exists: the `finally` block (lines
166-173) removes it on every path, so a staging file never outlives its
transfer attempt. -/
theorem claim_C10_staging_file_never_outlives_transfer
    (downloadDir fileName : String) (fs0 : String → Bool) (b : Beh) :
    (transfer_file downloadDir fileName fs0 b).2
      (downloadDir ++ "/" ++ fileName) = false := by
  have hrm : ∀ (p : String) (g : String → Bool),
      (if g p then rmFile p g else g) p = false := by
    intro p g
    by_cases h : g p
    · simp [h, rmFile]
    · simp only [Bool.not_eq_true] at h
      simp [h]
  exact hrm _ _

end IXWatch

namespace Loader

/-! ## Checkpoint loading — `run_dailymotion.py` lines 143-148

`done_ids = set(f.read().splitlines())` on the archive file (absent file
⇒ empty set).  File contents are modelled as the list of characters read;
`str.splitlines` is modelled for newline-delimited content.  Set
construction is dropped (membership is what the claims are about). -/

/-- Python `str.splitlines()` restricted to `'\n'` separators: splits at
each newline, with no empty trailing entry for content ending in a
newline, and the trailing characters after the last newline forming a
final entry. -/
def splitlinesCh : List Char → List (List Char)
  | [] => []
  | c :: cs =>
    if c = '\n' then [] :: splitlinesCh cs
    else
      match splitlinesCh cs with
      | [] => [[c]]
      | l :: ls => (c :: l) :: ls

/-- Loading `done_ids` (run_dailymotion.py lines 143-148): a missing
archive file yields the empty set, otherwise
`f.read().splitlines()`. -/
def loadDoneIds : Option (List Char) → List (List Char)
  | none => []
  | some content => splitlinesCh content

/-- **C7 counterexample**: with archive content `"abc\ntrunc"`, whose
last line `"trunc"` is a truncated partial write (no terminating
newline), the loader returns BOTH lines: the malformed trailing line is
loaded as an id rather than discarded, refuting "discarding only that
last line". -/
theorem claim_C7_counterexample :
    loadDoneIds (some ("abc\ntrunc".data))
      = ["abc".data, "trunc".data] := by decide

theorem splitlines_endNl_ne_nil (xs : List Char) :
    splitlinesCh (xs ++ ['\n']) ≠ [] := by
  induction xs with
  | nil => simp [splitlinesCh]
  | cons c cs ih =>
    by_cases hc : c = '\n'
    · simp [splitlinesCh, hc]
    · simp only [List.cons_append, splitlinesCh, hc, if_false]
      cases h : splitlinesCh (cs ++ ['\n']) with
      | nil => exact absurd h ih
      | cons l ls => simp

theorem splitlines_append_newline (ys : List Char) : ∀ xs : List Char,
    splitlinesCh (xs ++ '\n' :: ys)
      = splitlinesCh (xs ++ ['\n']) ++ splitlinesCh ys := by
  intro xs
  induction xs with
  | nil => simp [splitlinesCh]
  | cons c cs ih =>
    by_cases hc : c = '\n'
    · simp [splitlinesCh, hc, ih]
    · simp only [List.cons_append, splitlinesCh, hc, if_false, List.append_eq]
      rw [ih]
      cases hA : splitlinesCh (cs ++ ['\n']) with
      | nil => exact absurd hA (splitlines_endNl_ne_nil cs)
      | cons l ls => simp

theorem splitlines_no_newline (p : List Char) (hne : p ≠ [])
    (hnl : '\n' ∉ p) : splitlinesCh p = [p] := by
  induction p with
  | nil => exact absurd rfl hne
  | cons c cs ih =>
    have hc : c ≠ '\n' := by
      intro h
      exact hnl (h ▸ List.mem_cons_self c cs)
    by_cases hcs : cs = []
    · subst hcs
      simp [splitlinesCh, hc]
    · have hrec := ih hcs (fun h => hnl (List.mem_cons_of_mem _ h))
      simp [splitlinesCh, hc, hrec]

/-- **C7 (amended)**: loading the checkpoint store treats a missing or
empty backing file as the empty set, and the read never fails (the
loader is a total function); but a trailing malformed partial line is
NOT discarded — it is loaded as a (bogus) id entry alongside the fully
written lines.  (run_dailymotion.py lines 143-148 and run_year.py
`_load_archive`; the JSON-archive watcher loaders go further and return
the empty store on any parse error.) -/
theorem claim_C7_load_tolerant_but_partial_line_kept
    (good p : List Char) (hne : p ≠ []) (hnl : '\n' ∉ p) :
    loadDoneIds none = [] ∧
    loadDoneIds (some []) = [] ∧
    loadDoneIds (some (good ++ '\n' :: p))
      = loadDoneIds (some (good ++ ['\n'])) ++ [p] := by
  refine ⟨rfl, rfl, ?_⟩
  show splitlinesCh (good ++ '\n' :: p)
      = splitlinesCh (good ++ ['\n']) ++ [p]
  rw [splitlines_append_newline, splitlines_no_newline p hne hnl]

/-- Witness for the amended C7 at the concrete content
`"abc" ++ "\n" ++ "trunc"`. -/
theorem claim_C7_load_tolerant_but_partial_line_kept_witness :
    ("trunc".data ≠ ([] : List Char)) ∧ '\n' ∉ "trunc".data ∧
    loadDoneIds (some ("abc".data ++ '\n' :: "trunc".data))
      = loadDoneIds (some ("abc".data ++ ['\n'])) ++ ["trunc".data] :=
  ⟨by decide, by decide,
   (claim_C7_load_tolerant_but_partial_line_kept "abc".data "trunc".data
      (by decide) (by decide)).2.2⟩

end Loader

namespace SleepLoop

/-! ## Interruptible vs blocking sleeps

watcher_internxt_to_icedrive.py lines 274-279 (and
watcher_pcloud_to_bilibili.py lines 306-309) break the poll sleep into
`POLL_INTERVAL = 300` one-second chunks, re-checking the `_shutdown`
flag before each chunk.  `_handle_ratelimit_pause` (run_dailymotion.py
line 88) performs the 24-hour cooldown as a single
`time.sleep(24 * 60 * 60)` with no flag check inside (and the runner
scripts install no signal handler at all).  A sleep is modelled by the
list of its chunk durations; the shutdown flag becomes observable at
`cancelAt` seconds and is inspected only at chunk boundaries. -/

/-- Wall-clock time at which a chunked sleep started at time `t` exits:
before each chunk the `_shutdown` flag (set at time `cancelAt`) is
checked, and the loop exits at the first check that sees it. -/
def exitTime (cancelAt : Nat) : Nat → List Nat → Nat
  | t, [] => t
  | t, c :: cs => if cancelAt ≤ t then t else exitTime cancelAt (t + c) cs

/-- The watcher poll sleep:
`for _ in range(POLL_INTERVAL): if _shutdown: break; time.sleep(1)`. -/
def pollChunks : List Nat := List.replicate 300 1

/-- The rate-limit cooldown sleep: one uninterrupted
`time.sleep(24 * 60 * 60)`. -/
def cooldownChunks : List Nat := [24 * 60 * 60]

/-- **C8 counterexample**: a shutdown signal arriving one second after
the 24-hour rate-limit sleep begins takes effect only when the full
sleep has elapsed: the loop exits at t = 86400 s, the full sleep
duration, not within a delay on the order of seconds. -/
theorem claim_C8_counterexample :
    exitTime 1 0 cooldownChunks = 86400 := by decide

theorem exitTime_ones (cancelAt : Nat) :
    ∀ n t : Nat, cancelAt ≤ t + n → t ≤ cancelAt + 1 →
      exitTime cancelAt t (List.replicate n 1) ≤ cancelAt + 1 := by
  intro n
  induction n with
  | zero =>
    intro t h1 h2
    simpa [exitTime] using h2
  | succ n ih =>
    intro t h1 h2
    rw [List.replicate_succ]
    by_cases hc : cancelAt ≤ t
    · simpa [exitTime, hc] using h2
    · simp only [exitTime, hc, if_false]
      exact ih (t + 1) (by omega) (by omega)

/-- **C8 (amended)**: a shutdown signal during the watcher's inter-cycle
poll sleep takes effect within one 1-second chunk of its arrival, but a
signal during the 24-hour rate-limit cooldown sleep takes effect only
after the full 24 hours have elapsed — the cooldown is a single blocking
`time.sleep(24 * 60 * 60)` with no cancellation check, so the loop does
NOT exit within a small bounded delay there. -/
theorem claim_C8_poll_interruptible_cooldown_blocking (cancelAt : Nat) :
    (cancelAt ≤ 300 → exitTime cancelAt 0 pollChunks ≤ cancelAt + 1) ∧
    (1 ≤ cancelAt → exitTime cancelAt 0 cooldownChunks = 24 * 60 * 60) := by
  constructor
  · intro h
    exact exitTime_ones cancelAt 300 0 (by omega) (by omega)
  · intro h
    have hc : ¬ cancelAt ≤ 0 := by omega
    simp [cooldownChunks, exitTime, hc]

/-- Witness for the amended C8 at `cancelAt = 5`: the poll sleep exits by
t = 6, the cooldown sleep only at t = 86400. -/
theorem claim_C8_poll_interruptible_cooldown_blocking_witness :
    exitTime 5 0 pollChunks ≤ 6 ∧
    exitTime 5 0 cooldownChunks = 24 * 60 * 60 :=
  ⟨(claim_C8_poll_interruptible_cooldown_blocking 5).1 (by decide),
   (claim_C8_poll_interruptible_cooldown_blocking 5).2 (by decide)⟩

end SleepLoop

namespace UploadDM

/-! ## `uploader_dailymotion.py` — `upload_to_dailymotion` (lines 134-196) -/

/-- `MAX_UPLOAD_RETRIES = 3` (line 7). -/
def MAX_UPLOAD_RETRIES : Nat := 3

/-- `RETRY_BASE_DELAY = 30` seconds (line 8). -/
def RETRY_BASE_DELAY : Nat := 30

/-- Outcome of one attempt body (authenticate → get_upload_url →
upload_file → create_video): success with a video id; the internal
RATE_LIMITED signal from `create_video`; a requests `HTTPError` carrying
the response status (`none` when the exception has no response); a
`ConnectionError`; a `Timeout`; or an exception outside the caught
taxonomy (reaching the second except clause). -/
inductive Outcome where
  | success (id : String)
  | rateLimitedSignal
  | httpExc (status : Option Nat)
  | connExc
  | timeoutExc
  | otherExc
deriving DecidableEq, Repr

/-- Return value of `upload_to_dailymotion`: a video id, the string
`"RATE_LIMITED"`, or `None`. -/
inductive DMResult where
  | vid (id : String)
  | rateLimited
  | noneRes
deriving DecidableEq, Repr

/-- Trace events: one `attempt n` per loop iteration, plus the backoff
sleeps. -/
inductive Ev where
  | attempt (n : Nat)
  | sleepE (secs : Nat)
deriving DecidableEq, Repr

def isAttempt : Ev → Bool
  | .attempt _ => true
  | _ => false

/-- The `break` condition of the first except clause (lines 176-179):
a present 4xx status other than 429.  (`connExc`/`timeoutExc` carry no
status; the second except clause never checks a status.) -/
def isPermanent : Outcome → Bool
  | .httpExc (some s) => decide (400 ≤ s) && decide (s < 500) && decide (s ≠ 429)
  | _ => false

/-- Outcomes that raise an exception (reach one of the except clauses). -/
def isExc : Outcome → Bool
  | .success _ => false
  | .rateLimitedSignal => false
  | _ => true

/-- The retry loop of `upload_to_dailymotion` (lines 146-196): `oc a` is
the outcome of the 1-based attempt `a`, `r` the number of loop
iterations left.  A caught exception breaks immediately on a permanent
4xx status (≠ 429, lines 177-179) and otherwise sleeps
`RETRY_BASE_DELAY * 2^(attempt-1)` before the next attempt — and an
exception OUTSIDE the caught taxonomy takes the same sleep-and-retry
path (second except clause, lines 187-193).  On exhaustion the function
returns `None` (line 196). -/
def loop (oc : Nat → Outcome) : Nat → Nat → List Ev × DMResult
  | _, 0 => ([], .noneRes)
  | a, r + 1 =>
    match oc a with
    | .success id => ([.attempt a], .vid id)
    | .rateLimitedSignal => ([.attempt a], .rateLimited)
    | o =>
      if isPermanent o then ([.attempt a], .noneRes)
      else if r = 0 then ([.attempt a], .noneRes)
      else
        let rest := loop oc (a + 1) r
        (.attempt a :: .sleepE (RETRY_BASE_DELAY * 2 ^ (a - 1)) :: rest.1,
         rest.2)

/-- `upload_to_dailymotion`, as a function of the per-attempt outcome
oracle. -/
def upload_to_dailymotion (oc : Nat → Outcome) : List Ev × DMResult :=
  loop oc 1 MAX_UPLOAD_RETRIES

/-- Oracle for the C9 counterexample: attempt 1 raises an exception
outside the declared taxonomy, attempt 2 succeeds. -/
def c9oc : Nat → Outcome := fun a => if a = 1 then .otherExc else .success "xyz"

/-- **C9 counterexample**: attempt 1 raises an exception outside the
declared taxonomy; the upload is nevertheless retried after a 30 s
backoff, and attempt 2 succeeds — two attempts appear in the trace —
contradicting "any exception outside the declared error taxonomy is
treated as Failure with no further retries" (the second except clause at
uploader_dailymotion.py lines 187-193 sleeps and retries exactly like a
transient error). -/
theorem claim_C9_counterexample :
    upload_to_dailymotion c9oc
      = ([.attempt 1, .sleepE 30, .attempt 2], .vid "xyz") := by decide

theorem loop_attempt_bound (oc : Nat → Outcome) :
    ∀ r a, (((loop oc a r).1.countP isAttempt)) ≤ r := by
  intro r
  induction r with
  | zero => intro a; simp [loop]
  | succ r ih =>
    intro a
    cases ho : oc a with
    | success id =>
      simp [loop, ho, List.countP_cons, isAttempt]
    | rateLimitedSignal =>
      simp [loop, ho, List.countP_cons, isAttempt]
    | httpExc s =>
      by_cases hp : isPermanent (.httpExc s)
      · simp [loop, ho, hp, List.countP_cons, isAttempt]
      · by_cases hr : r = 0
        · simp [loop, ho, hp, hr, List.countP_cons, isAttempt]
        · have := ih (a + 1)
          simp only [loop, ho, hp, Bool.false_eq_true, if_false, hr,
            List.countP_cons, isAttempt]
          simp [List.countP_cons, isAttempt]
          omega
    | connExc =>
      by_cases hr : r = 0
      · simp [loop, ho, isPermanent, hr, List.countP_cons, isAttempt]
      · have := ih (a + 1)
        simp only [loop, ho, isPermanent, Bool.false_eq_true, if_false, hr]
        simp [List.countP_cons, isAttempt]
        omega
    | timeoutExc =>
      by_cases hr : r = 0
      · simp [loop, ho, isPermanent, hr, List.countP_cons, isAttempt]
      · have := ih (a + 1)
        simp only [loop, ho, isPermanent, Bool.false_eq_true, if_false, hr]
        simp [List.countP_cons, isAttempt]
        omega
    | otherExc =>
      by_cases hr : r = 0
      · simp [loop, ho, isPermanent, hr, List.countP_cons, isAttempt]
      · have := ih (a + 1)
        simp only [loop, ho, isPermanent, Bool.false_eq_true, if_false, hr]
        simp [List.countP_cons, isAttempt]
        omega

/-- **C9 (amended)**: an HTTP 4xx error other than 429 aborts the upload
immediately with result `None` and is never retried; any other caught
exception (timeout, connection error, 5xx, 429) is retried with
exponential backoff `RETRY_BASE_DELAY * 2^(attempt-1)`; and an exception
OUTSIDE the declared taxonomy is retried in exactly the same way — it is
NOT a terminal Failure — with at most `MAX_UPLOAD_RETRIES` (3) attempts
in total. -/
theorem claim_C9_permanent_abort_others_retried_with_backoff
    (oc : Nat → Outcome) (a r : Nat) :
    (isPermanent (oc a) = true →
      loop oc a (r + 1) = ([.attempt a], .noneRes)) ∧
    (isExc (oc a) = true → isPermanent (oc a) = false → r ≠ 0 →
      loop oc a (r + 1)
        = (.attempt a :: .sleepE (RETRY_BASE_DELAY * 2 ^ (a - 1)) ::
            (loop oc (a + 1) r).1, (loop oc (a + 1) r).2)) ∧
    (∀ oc' : Nat → Outcome,
      (((upload_to_dailymotion oc').1.countP isAttempt))
        ≤ MAX_UPLOAD_RETRIES) := by
  refine ⟨?_, ?_, fun oc' => loop_attempt_bound oc' MAX_UPLOAD_RETRIES 1⟩
  · intro hp
    cases ho : oc a with
    | success id => rw [ho] at hp; simp [isPermanent] at hp
    | rateLimitedSignal => rw [ho] at hp; simp [isPermanent] at hp
    | httpExc s =>
      rw [ho] at hp
      simp [loop, ho, hp]
    | connExc => rw [ho] at hp; simp [isPermanent] at hp
    | timeoutExc => rw [ho] at hp; simp [isPermanent] at hp
    | otherExc => rw [ho] at hp; simp [isPermanent] at hp
  · intro hexc hp hr
    cases ho : oc a with
    | success id => rw [ho] at hexc; simp [isExc] at hexc
    | rateLimitedSignal => rw [ho] at hexc; simp [isExc] at hexc
    | httpExc s =>
      rw [ho] at hp
      simp [loop, ho, hp, hr]
    | connExc =>
      simp [loop, ho, isPermanent, hr]
    | timeoutExc =>
      simp [loop, ho, isPermanent, hr]
    | otherExc =>
      simp [loop, ho, isPermanent, hr]

/-- Witness for the amended C9: a 403 aborts at once with `None`; an
undeclared exception on attempt 1 (oracle `c9oc`) is retried after the
30 s backoff. -/
theorem claim_C9_permanent_abort_others_retried_with_backoff_witness :
    loop (fun _ => .httpExc (some 403)) 1 3 = ([.attempt 1], .noneRes) ∧
    loop c9oc 1 3
      = (.attempt 1 :: .sleepE 30 :: (loop c9oc 2 2).1, (loop c9oc 2 2).2) :=
  ⟨(claim_C9_permanent_abort_others_retried_with_backoff
      (fun _ => .httpExc (some 403)) 1 2).1 (by decide),
   (claim_C9_permanent_abort_others_retried_with_backoff
      c9oc 1 2).2.1 (by decide) (by decide) (by decide)⟩

end UploadDM

end AVA
